import Mathlib

/-!
Verification of the discord-voice-scribe repository against its
natural-language specification.  Python source files are shallowly
embedded: Python strings become `List Char`, `pathlib` paths become a
flag plus a component list, dictionaries become association lists, and
the effectful handlers become pure functions that return their observable
result together with the updated state.
-/

/-! ## Python strings (`str`) as lists of characters -/

/-- A Python string, modelled as its list of characters. -/
abbrev PyStr := List Char

/-- Embedding of `','.join(participants)` from
`DatabaseManager.finish_recording` (database.py line 123). -/
def joinComma : List PyStr → PyStr
  | [] => []
  | [p] => p
  | p :: q :: ps => p ++ ',' :: joinComma (q :: ps)

/-- Embedding of Python `s.split(',')`: splitting at every comma, so that
the result always has one more group than there are commas. -/
def splitComma : PyStr → List PyStr
  | [] => [[]]
  | c :: rest =>
    match splitComma rest with
    | [] => [[]]
    | g :: gs => if c = ',' then [] :: g :: gs else (c :: g) :: gs

/-- Embedding of `row[11].split(',') if row[11] else []` from
`DatabaseManager.get_recording` (database.py line 151): the empty (falsy)
string is mapped to the empty list, any other string is split on commas. -/
def parseParticipants (s : PyStr) : List PyStr :=
  if s = [] then [] else splitComma s

/-- Round trip of a participants list through the persistent store:
`finish_recording` saves `','.join(participants)` and `get_recording`
reconstructs the list from that string. -/
def participantsRoundTrip (ps : List PyStr) : List PyStr :=
  parseParticipants (joinComma ps)

/-- Embedding of Python `s.startswith(pre)` used by the file server:
a plain character-wise prefix test on the two strings. -/
def pyStartsWith (s pre : PyStr) : Bool :=
  pre.isPrefixOf s

/-! ## Paths (`pathlib.Path`) and the download route of file_server.py -/

/-- A `pathlib.Path`: an absolute-or-relative flag and the list of
name components. -/
structure PyPath where
  isAbs : Bool
  comps : List PyStr
deriving DecidableEq

/-- Lexical collapse of `.` and `..` components, as `Path.resolve()`
performs on a symlink-free filesystem. -/
def normalizeComps (cs : List PyStr) : List PyStr :=
  cs.foldl
    (fun acc c =>
      if c = ['.'] then acc
      else if c = ['.', '.'] then acc.dropLast
      else acc ++ [c]) []

/-- `Path.resolve()`: a relative path is interpreted against the current
working directory, then `.`/`..` components are collapsed.  The result is
the component list of an absolute path. -/
def resolvePath (cwd : List PyStr) (p : PyPath) : List PyStr :=
  normalizeComps (if p.isAbs then p.comps else cwd ++ p.comps)

/-- `str(path)` for a resolved (absolute) component list: `/` followed by
the components joined with `/`; the root itself prints as `/`. -/
def pathStr (cs : List PyStr) : PyStr :=
  match cs with
  | [] => ['/']
  | _ => (cs.map (fun c => '/' :: c)).flatten

/-- The proper containment relation the specification talks about: the
resolved file path lies inside the resolved recordings root when the
root's component list is a prefix of the file's component list. -/
def insideRoot (rootRes fpRes : List PyStr) : Bool :=
  rootRes.isPrefixOf fpRes

/-- The in-memory value stored for a download token
(`FileServer.active_tokens`, file_server.py lines 96-102). -/
structure TokenInfo where
  recordingId : Nat
  filePath : PyPath
  expiresAt : Nat
deriving DecidableEq

/-- Observable outcome of `GET /download/{token}`: either the uniform
404 "File not found" response or the served file. -/
inductive DlResult where
  | notFound
  | file (path : List PyStr) (recordingId : Nat)
deriving DecidableEq

/-- The token's bound path as the route resolves it (file_server.py lines
54-61): joined under the recordings root when relative, then resolved. -/
def boundPathResolved (root : PyPath) (cwd : List PyStr)
    (info : TokenInfo) : List PyStr :=
  resolvePath cwd
    (if info.filePath.isAbs then info.filePath
     else ⟨root.isAbs, root.comps ++ info.filePath.comps⟩)

/-- The security check of the route (file_server.py line 62):
`str(file_path).startswith(str(self.recordings_path.resolve()))`. -/
def passesRootCheck (root : PyPath) (cwd : List PyStr)
    (info : TokenInfo) : Bool :=
  pyStartsWith (pathStr (boundPathResolved root cwd info))
    (pathStr (resolvePath cwd root))

/-- Embedding of the `download_file` route
(`FileServer.setup_routes.download_file`, file_server.py lines 37-78):
unknown token → 404; expired token → delete it, then 404; otherwise the
bound path is resolved and served only if the `startswith` security
check holds and the file exists.  Every failure raises the same
`HTTPException(404, "File not found")`.  Returns the response and the
updated token table. -/
def download_file (root : PyPath) (cwd : List PyStr)
    (fsExists : List PyStr → Bool)
    (tokens : List (PyStr × TokenInfo)) (now : Nat) (token : PyStr) :
    DlResult × List (PyStr × TokenInfo) :=
  match tokens.lookup token with
  | none => (.notFound, tokens)
  | some info =>
    if info.expiresAt < now then
      (.notFound, tokens.filter (fun p => p.1 != token))
    else if ¬ passesRootCheck root cwd info then
      (.notFound, tokens)
    else if ¬ fsExists (boundPathResolved root cwd info) then
      (.notFound, tokens)
    else
      (.file (boundPathResolved root cwd info) info.recordingId, tokens)

/-! ## The audio pipeline of audio_processor.py -/

/-- One per-user input track of `AudioProcessor.process_recording`:
whether its file exists on disk, and what `ffprobe` reports for its
duration (`none` when probing fails). -/
structure Track where
  userId : Nat
  existsOnDisk : Bool
  probe : Option ℚ
deriving DecidableEq

/-- Embedding of `AudioProcessor._get_audio_duration` (audio_processor.py
lines 95-121): the probed duration, or `0.0` when the probe fails. -/
def getAudioDuration (t : Track) : ℚ :=
  t.probe.getD 0

/-- The tracks that survive the selection loop of `process_recording`
(audio_processor.py lines 49-63): exactly those whose file exists on
disk; each surviving track is normalized and kept. -/
def survivingTracks (ts : List Track) : List Track :=
  ts.filter (·.existsOnDisk)

/-- `max_duration` as accumulated by the loop: the running maximum,
starting from `0`, of `getAudioDuration` over the surviving tracks. -/
def maxDurationOf (ts : List Track) : ℚ :=
  (survivingTracks ts).foldl (fun m t => max m (getAudioDuration t)) 0

/-- Outcome of the track-selection phase of `process_recording`: either
the `ValueError("No valid audio files found")` failure, or the list of
normalized tracks together with the synchronization target duration. -/
inductive SelectOutcome where
  | noValidTracks
  | proceed (normalized : List Track) (targetDuration : ℚ)
deriving DecidableEq

/-- Embedding of the selection phase of `AudioProcessor.process_recording`
(audio_processor.py lines 46-66): tracks missing on disk are skipped;
every other track is probed (failed probes count as duration `0.0`) and
normalized; if nothing survives the pipeline raises, and otherwise it
proceeds to synchronize and mix the survivors against the running
maximum duration. -/
def selectTracks (ts : List Track) : SelectOutcome :=
  let ns := survivingTracks ts
  if ns.isEmpty then .noValidTracks else .proceed ns (maxDurationOf ts)

/-- A normalized WAV file: its payload bytes (samples) and its probed
duration in seconds. -/
structure Wav where
  data : List Int
  dur : ℚ
deriving DecidableEq

/-- The silence generated by `anullsrc=...:sample_rate=48000:duration=d`:
`d` seconds of zero samples. -/
def silenceWav (d : ℚ) : Wav :=
  ⟨List.replicate (d * 48000).floor.toNat 0, d⟩

/-- What `AudioProcessor._synchronize_audio_file` does to one file:
either a byte-for-byte copy (`shutil.copy2`) or a concat of the file with
a generated silence of the given duration. -/
inductive SyncStep where
  | copy (f : Wav)
  | padded (f : Wav) (silenceDur : ℚ)
deriving DecidableEq

/-- The file produced by a synchronization step: a copy is the identical
file; padding appends the silence samples and extends the duration. -/
def renderSync : SyncStep → Wav
  | .copy f => f
  | .padded f d => ⟨f.data ++ (silenceWav d).data, f.dur + d⟩

/-- Embedding of `AudioProcessor._synchronize_audio_file`
(audio_processor.py lines 156-187): a file whose current duration is at
least the target is copied unchanged; otherwise silence of length
`target_duration - current_duration` is concatenated at its end. -/
def synchronizeAudioFile (f : Wav) (targetDuration : ℚ) : SyncStep :=
  if targetDuration ≤ f.dur then .copy f
  else .padded f (targetDuration - f.dur)

/-- The ffmpeg command built by `AudioProcessor._mix_audio_files`: either
a direct transcode of a single input, or a filter-graph mix of several
inputs. -/
inductive MixCommand where
  | singleTranscode (input : PyStr) (codec : PyStr) (bitrate : PyStr)
  | filterMix (inputs : List PyStr) (filterComplex : PyStr)
      (codec : PyStr) (bitrate : PyStr)
deriving DecidableEq

/-- The codec chosen in `_mix_audio_files`:
`'libmp3lame' if self.audio_format == 'mp3' else 'aac'`. -/
def codecFor (fmt : PyStr) : PyStr :=
  if fmt = "mp3".toList then "libmp3lame".toList else "aac".toList

/-- The `-filter_complex` string of the multi-input branch
(audio_processor.py lines 207-208): the input labels followed by
`amix=inputs=N:duration=longest:dropout_transition=0[out]`. -/
def amixFilter (n : Nat) : PyStr :=
  ((List.range n).map (fun i => '[' :: (Nat.toDigits 10 i) ++ ":a]".toList)).flatten
    ++ "amix=inputs=".toList ++ (Nat.toDigits 10 n)
    ++ ":duration=longest:dropout_transition=0[out]".toList

/-- Embedding of `AudioProcessor._mix_audio_files` (audio_processor.py
lines 189-219): with exactly one input file the command is a direct
transcode to the output codec and bitrate; with any other number of
inputs the command is the amix filter graph over all inputs. -/
def mixAudioFiles (inputs : List PyStr) (fmt bitrate : PyStr) : MixCommand :=
  match inputs with
  | [f] => .singleTranscode f (codecFor fmt) bitrate
  | _ => .filterMix inputs (amixFilter inputs.length) (codecFor fmt) bitrate

/-- Whether a mix command contains the amix filter graph. -/
def usesAmixGraph : MixCommand → Bool
  | .singleTranscode .. => false
  | .filterMix .. => true

/-! ## Subprocess invocations and their error handling (C8) -/

/-- How a spawned ffmpeg process run would end.  `asyncio.TimeoutError`
is not an outcome: no invocation in the pipeline uses `asyncio.wait_for`
and the extra `timeout` keyword never reaches the process (see
`createSubprocessExec`), so nothing can raise it and the
`except asyncio.TimeoutError` handler in `_normalize_audio_file` is dead
code. -/
inductive ProcOutcome where
  | ok
  | nonzeroExit (stderrText : PyStr)
  | binaryMissing
deriving DecidableEq

/-- The errors that can escape a pipeline invocation: the typed
`RuntimeError`s the handlers raise, and the exceptions no handler in the
function matches, which propagate raw. -/
inductive PipelineError where
  | processFailed (msg : PyStr)
  | timeout
  | toolMissing
  | unhandledTypeError
  | unhandledFileNotFound
deriving DecidableEq

/-- The keyword arguments an invocation passes to
`asyncio.create_subprocess_exec` beyond the standard streams. -/
structure SubprocessKwargs where
  timeoutSecs : Option Nat
deriving DecidableEq

/-- The invocation in `_normalize_audio_file` (audio_processor.py lines
135-140) passes `timeout=60`. -/
def normalizeKwargs : SubprocessKwargs := ⟨some 60⟩

/-- The invocation in `_mix_audio_files` (audio_processor.py lines
221-225) passes no extra keyword argument. -/
def mixKwargs : SubprocessKwargs := ⟨none⟩

/-- The invocation in `_synchronize_audio_file` (audio_processor.py lines
177-181) passes no extra keyword argument. -/
def syncKwargs : SubprocessKwargs := ⟨none⟩

/-- Result of a spawn attempt: either the spawn itself raises
`TypeError`, or a process runs and ends with a `ProcOutcome`. -/
inductive SpawnResult where
  | typeError
  | ran (o : ProcOutcome)
deriving DecidableEq

/-- Python-library semantics of `asyncio.create_subprocess_exec`: any
keyword argument it does not recognise — `timeout` among them — is
forwarded through `loop.subprocess_exec` to `subprocess.Popen`, whose
constructor has no such parameter and raises
`TypeError: unexpected keyword argument` before any process is spawned;
with no extra keyword the process is spawned and runs to its outcome. -/
def createSubprocessExec (kw : SubprocessKwargs) (o : ProcOutcome) :
    SpawnResult :=
  match kw.timeoutSecs with
  | some _ => .typeError
  | none => .ran o

/-- Embedding of one `_normalize_audio_file` invocation
(audio_processor.py lines 123-154): the spawn passes `timeout=60`, and
the handlers map a non-zero exit to the ProcessFailed `RuntimeError`
carrying the captured stderr and `FileNotFoundError` to the ToolMissing
`RuntimeError`.  A `TypeError` from the spawn matches none of the
`except` clauses and propagates raw. -/
def normalizeAudioFile (o : ProcOutcome) : Except PipelineError Unit :=
  match createSubprocessExec normalizeKwargs o with
  | .typeError => .error .unhandledTypeError
  | .ran .ok => .ok ()
  | .ran (.nonzeroExit s) =>
      .error (.processFailed ("Audio normalization failed: ".toList ++ s))
  | .ran .binaryMissing => .error .toolMissing

/-- Embedding of one `_mix_audio_files` invocation (audio_processor.py
lines 221-231): the spawn passes no extra keyword; only a non-zero exit
is turned into the typed ProcessFailed error — the function installs no
handler at all, so a missing binary propagates as a raw
`FileNotFoundError`. -/
def mixAudioFilesRun (o : ProcOutcome) : Except PipelineError Unit :=
  match createSubprocessExec mixKwargs o with
  | .typeError => .error .unhandledTypeError
  | .ran .ok => .ok ()
  | .ran (.nonzeroExit s) =>
      .error (.processFailed ("Audio mixing failed: ".toList ++ s))
  | .ran .binaryMissing => .error .unhandledFileNotFound

/-! ## The durable recordings row and `process_recording` of bot.py -/

/-- The mutable columns of a `recordings` row that the completion path
touches (database.py lines 52-68): rows are created with
`status = 'recording'` and all completion columns NULL. -/
structure RecordingRow where
  status : PyStr
  endTime : Option Nat
  filePath : Option PyStr
  fileSize : Option Nat
  participants : Option PyStr
  duration : Option Nat
deriving DecidableEq

/-- A freshly inserted row (`DatabaseManager.start_recording`,
database.py lines 95-113): status `'recording'`, completion columns NULL. -/
def freshRow : RecordingRow :=
  ⟨"recording".toList, none, none, none, none, none⟩

/-- Embedding of `DatabaseManager.finish_recording` (database.py lines
115-127): writes the end time, file path, file size, the comma-joined
participants, the duration, and sets status to `'completed'`. -/
def finish_recording (endT : Nat) (fp : PyStr) (fs : Nat)
    (parts : List PyStr) (dur : Nat) : RecordingRow :=
  ⟨"completed".toList, some endT, some fp, some fs,
    some (joinComma parts), some dur⟩

/-- How the mixdown pipeline call inside `process_recording` ends:
either the final file path and size, or a raised error. -/
inductive PipelineRun where
  | success (path : PyStr) (size : Nat)
  | failure (err : PyStr)
deriving DecidableEq

/-- A message sent to the invoking text channel by `process_recording`:
the green completion embed or the red error embed. -/
inductive Notice where
  | completeNotice (recordingId : Nat)
  | errorNotice (recordingId : Nat)
deriving DecidableEq

/-- Embedding of `VoiceRecordingBot.process_recording` (bot.py lines
182-236): on pipeline success the row is finished via
`finish_recording` and the completion embed is sent; on any raised error
the exception handler only logs and sends the error embed — the durable
row is not written at all.  Returns the row as left in the store and the
notices sent (none when no channel is attached). -/
def process_recording (recordingId : Nat) (row : RecordingRow)
    (endT : Nat) (parts : List PyStr) (dur : Nat) (hasChannel : Bool)
    (run : PipelineRun) : RecordingRow × List Notice :=
  match run with
  | .success p s =>
      (finish_recording endT p s parts dur,
        if hasChannel then [.completeNotice recordingId] else [])
  | .failure _ =>
      (row, if hasChannel then [.errorNotice recordingId] else [])

/-! ## The live-session table and the join/stop flows of commands.py -/

/-- One entry of `bot.active_recordings` (the fields the join/stop flows
consult). -/
structure RecInfo where
  recordingId : Nat
  channelId : Nat
  startedBy : Nat
deriving DecidableEq

/-- The live-session table: `guild_id -> recording_info`
(bot.py line 45). -/
abbrev LiveTable := List (Nat × RecInfo)

/-- Observable outcome of the `/join` flow. -/
inductive JoinOutcome where
  | alreadyRecording (existingChannel : Nat) (existingRecId : Nat)
  | started (recordingId : Nat)
deriving DecidableEq

/-- Embedding of `join_command` (commands.py lines 72-151): if the guild
already has a live entry, the flow answers with the Already-Recording
embed and returns without touching the database or the table; otherwise
it creates a durable metadata row (`db.start_recording`) and inserts one
fresh live entry for the guild.  The boolean reports whether a durable
row was created. -/
def join_command (st : LiveTable) (guildId channelId userId : Nat)
    (nextRecId : Nat) : JoinOutcome × LiveTable × Bool :=
  match st.lookup guildId with
  | some info => (.alreadyRecording info.channelId info.recordingId, st, false)
  | none => (.started nextRecId,
      (guildId, ⟨nextRecId, channelId, userId⟩) :: st, true)

/-- Number of live sessions recording a given voice channel. -/
def liveForChannel (st : LiveTable) (c : Nat) : Nat :=
  (st.filter (fun p => p.2.channelId == c)).length

/-- Observable outcome of the `/stop` flow. -/
inductive StopOutcome where
  | noActive
  | forbidden
  | stopping (recordingId : Nat)
deriving DecidableEq

/-- Everything observable about one run of the `/stop` flow: the reply,
the live-session table afterwards, whether voice capture was stopped, and
whether the durable store was updated. -/
structure StopEffects where
  outcome : StopOutcome
  state : LiveTable
  captureStopped : Bool
  durableUpdated : Bool
deriving DecidableEq

/-- Embedding of `stop_command` (commands.py lines 153-199): no live
entry for the guild → the No-Active reply; a requester who is neither
the initiator nor holds Manage-Messages → the Forbidden reply, with the
table, the capture and the durable store untouched; otherwise the
session is stopped, processed and removed from the table. -/
def stop_command (st : LiveTable) (guildId userId : Nat)
    (hasManageMessages : Bool) : StopEffects :=
  match st.lookup guildId with
  | none => ⟨.noActive, st, false, false⟩
  | some info =>
    if userId ≠ info.startedBy ∧ hasManageMessages = false then
      ⟨.forbidden, st, false, false⟩
    else
      ⟨.stopping info.recordingId,
        st.filter (fun p => p.1 != guildId), true, true⟩

/-! ## Helper lemmas -/

theorem splitComma_ne_nil (s : PyStr) : splitComma s ≠ [] := by
  cases s with
  | nil => simp [splitComma]
  | cons c rest =>
    cases h : splitComma rest with
    | nil => simp [splitComma, h]
    | cons g gs => by_cases hc : c = ',' <;> simp [splitComma, h, hc]

theorem splitComma_no_comma (p : PyStr) (h : ',' ∉ p) : splitComma p = [p] := by
  induction p with
  | nil => rfl
  | cons c rest ih =>
    have hc : ¬ c = ',' := fun hc => h (by simp [hc])
    have hr : ',' ∉ rest := fun hm => h (List.mem_cons_of_mem _ hm)
    simp [splitComma, ih hr, hc]

theorem splitComma_append (p s : PyStr) (h : ',' ∉ p) :
    splitComma (p ++ ',' :: s) = p :: splitComma s := by
  induction p with
  | nil =>
    obtain ⟨g, gs, hg⟩ := List.exists_cons_of_ne_nil (splitComma_ne_nil s)
    simp [splitComma, hg]
  | cons c rest ih =>
    have hc : ¬ c = ',' := fun hc => h (by simp [hc])
    have hr : ',' ∉ rest := fun hm => h (List.mem_cons_of_mem _ hm)
    simp [splitComma, ih hr, hc]

theorem splitComma_joinComma (ps : List PyStr)
    (h : ∀ p ∈ ps, ',' ∉ p) (hne : ps ≠ []) :
    splitComma (joinComma ps) = ps := by
  induction ps with
  | nil => exact absurd rfl hne
  | cons p ps ih =>
    cases ps with
    | nil => exact splitComma_no_comma p (h p (by simp))
    | cons q rest =>
      have h1 : ',' ∉ p := h p (by simp)
      have h2 : ∀ r ∈ q :: rest, ',' ∉ r := fun r hr =>
        h r (List.mem_cons_of_mem _ hr)
      calc splitComma (joinComma (p :: q :: rest))
          = splitComma (p ++ ',' :: joinComma (q :: rest)) := rfl
        _ = p :: splitComma (joinComma (q :: rest)) := splitComma_append _ _ h1
        _ = p :: q :: rest := by rw [ih h2 (by simp)]

theorem joinComma_ne_nil (p : PyStr) (ps : List PyStr)
    (hp : p ≠ [] ∨ ps ≠ []) : joinComma (p :: ps) ≠ [] := by
  cases ps with
  | nil =>
    have : p ≠ [] := hp.resolve_right (fun hh => hh rfl)
    simpa [joinComma] using this
  | cons q rest => simp [joinComma]

theorem lookup_filter_ne {α β : Type} [BEq α] [LawfulBEq α]
    (st : List (α × β)) (k : α) :
    (st.filter (fun p => p.1 != k)).lookup k = none := by
  induction st with
  | nil => rfl
  | cons p st ih =>
    obtain ⟨a, b⟩ := p
    rw [List.filter_cons]
    by_cases h : a = k
    · rw [if_neg (by simp [h])]
      exact ih
    · rw [if_pos (by simp [h]), List.lookup,
        show (k == a) = false from beq_eq_false_iff_ne.mpr
          (fun hh => h hh.symm)]
      exact ih

theorem keys_ne_of_lookup_none {st : LiveTable} {g : Nat}
    (h : st.lookup g = none) : ∀ p ∈ st, p.1 ≠ g := by
  induction st with
  | nil => intro p hp; cases hp
  | cons q st ih =>
    obtain ⟨a, b⟩ := q
    intro p hp
    by_cases hq : a = g
    · rw [List.lookup,
        show (g == a) = true from beq_iff_eq.mpr hq.symm] at h
      exact Option.noConfusion h
    · rcases List.mem_cons.mp hp with hpe | hpm
      · rw [hpe]; exact hq
      · rw [List.lookup,
          show (g == a) = false from beq_eq_false_iff_ne.mpr
            (fun hh => hq hh.symm)] at h
        exact ih h p hpm

theorem lookup_of_mem_key {st : LiveTable} {p : Nat × RecInfo} {g : Nat}
    (hp : p ∈ st) (hk : p.1 = g) : ∃ info, st.lookup g = some info := by
  induction st with
  | nil => cases hp
  | cons q st ih =>
    obtain ⟨a, b⟩ := q
    by_cases hq : a = g
    · refine ⟨b, ?_⟩
      rw [List.lookup,
        show (g == a) = true from beq_iff_eq.mpr hq.symm]
    · rcases List.mem_cons.mp hp with hpe | hpm
      · exact absurd (by rw [hpe] at hk; exact hk) hq
      · rcases ih hpm with ⟨i, hi⟩
        refine ⟨i, ?_⟩
        rw [List.lookup,
          show (g == a) = false from beq_eq_false_iff_ne.mpr
            (fun hh => hq hh.symm)]
        exact hi

theorem foldl_max_filter_probed (ts : List Track) (m : ℚ) (hm : 0 ≤ m) :
    (ts.filter (fun t => t.probe.isSome)).foldl
        (fun a t => max a (getAudioDuration t)) m
      = ts.foldl (fun a t => max a (getAudioDuration t)) m := by
  induction ts generalizing m with
  | nil => rfl
  | cons t ts ih =>
    by_cases h : t.probe.isSome
    · rw [List.filter_cons_of_pos (by simpa using h), List.foldl_cons,
        List.foldl_cons]
      exact ih _ (le_trans hm (le_max_left _ _))
    · have hd : getAudioDuration t = 0 := by
        cases hp : t.probe with
        | none => simp [getAudioDuration, hp]
        | some d => rw [hp] at h; simp at h
      rw [List.filter_cons_of_neg (by simpa using h), List.foldl_cons, hd,
        max_eq_left hm]
      exact ih m hm

theorem maxDurationOf_ignores_unprobed (ts : List Track) :
    maxDurationOf ts
      = ((survivingTracks ts).filter (fun t => t.probe.isSome)).foldl
          (fun a t => max a (getAudioDuration t)) 0 :=
  (foldl_max_filter_probed (survivingTracks ts) 0 le_rfl).symm

theorem amixFilter_longest (n : Nat) :
    ":duration=longest".toList <:+: amixFilter n := by
  refine ⟨((List.range n).map
      (fun i => '[' :: (Nat.toDigits 10 i) ++ ":a]".toList)).flatten
        ++ "amix=inputs=".toList ++ (Nat.toDigits 10 n),
    ":dropout_transition=0[out]".toList, ?_⟩
  have h : ":duration=longest".toList ++ ":dropout_transition=0[out]".toList
      = ":duration=longest:dropout_transition=0[out]".toList := by decide
  unfold amixFilter
  rw [← h]
  simp [List.append_assoc]

/-! ## Claim theorems -/

/-- Claim C10 (corrected, counterexample): the singleton list holding one
empty name contains no comma, yet saving it joins to the empty string,
which `get_recording` maps back to the empty list — the round trip does
not return the original list, refuting the claim as stated. -/
theorem C10_counterexample :
    (∀ p ∈ [([] : PyStr)], ',' ∉ p) ∧
    participantsRoundTrip [([] : PyStr)] = [] ∧
    [([] : PyStr)] ≠ ([] : List PyStr) := by decide

/-- Claim C10 (amended): the participants list round-trips through the
comma-joined column for every list of comma-free names other than the
singleton empty-name list `[""]` (in particular for the empty list),
while a list holding a name with a comma comes back changed. -/
theorem C10_round_trip (ps : List PyStr)
    (hc : ∀ p ∈ ps, ',' ∉ p) (hne : ps ≠ [[]]) :
    participantsRoundTrip ps = ps ∧
    participantsRoundTrip [['a', ',', 'b']] ≠ [['a', ',', 'b']] := by
  constructor
  · cases ps with
    | nil => rfl
    | cons p rest =>
      have hj : joinComma (p :: rest) ≠ [] := by
        apply joinComma_ne_nil
        cases rest with
        | nil =>
          left
          intro hp
          exact hne (by rw [hp])
        | cons q r => right; simp
      unfold participantsRoundTrip parseParticipants
      rw [if_neg hj]
      exact splitComma_joinComma _ hc (by simp)
  · decide

/-- Witness for C10_round_trip at a concrete comma-free list. -/
theorem C10_witness :
    participantsRoundTrip ["alice".toList, "bob".toList]
      = ["alice".toList, "bob".toList] :=
  (C10_round_trip ["alice".toList, "bob".toList] (by decide) (by decide)).1

/-- Claim C3 (corrected, counterexample): a track that exists on disk but
cannot be probed is not skipped — the selection phase keeps it, proceeds
with it in the normalized list, and does not fail with the
no-valid-tracks error, refuting the claim as stated. -/
theorem C3_counterexample :
    (⟨0, true, none⟩ : Track).probe = none ∧
    selectTracks [⟨0, true, none⟩] ≠ .noValidTracks ∧
    selectTracks [⟨0, true, none⟩] = .proceed [⟨0, true, none⟩] 0 := by decide

/-- Claim C3 (amended): the selection phase of the pipeline skips exactly
the tracks missing on disk; it fails with the no-valid-tracks error iff
every track is missing; a surviving track is normalized and mixed even
when its probe fails, but a failed probe contributes duration `0` and so
never raises the synchronization target. -/
theorem C3_track_selection (ts : List Track) :
    (selectTracks ts = .noValidTracks ↔ ∀ t ∈ ts, t.existsOnDisk = false) ∧
    (∀ ns target, selectTracks ts = .proceed ns target →
      ns = survivingTracks ts ∧
      target = ((survivingTracks ts).filter (fun t => t.probe.isSome)).foldl
          (fun a t => max a (getAudioDuration t)) 0) ∧
    (∀ t ∈ ts, t.existsOnDisk = true →
      ∃ ns target, selectTracks ts = .proceed ns target ∧ t ∈ ns) := by
  refine ⟨?_, ?_, ?_⟩
  · constructor
    · intro h t ht
      by_contra hcon
      have htd : t.existsOnDisk = true := by
        cases hb : t.existsOnDisk
        · exact absurd hb hcon
        · rfl
      have hmem : t ∈ survivingTracks ts :=
        List.mem_filter.mpr ⟨ht, htd⟩
      have hemp : (survivingTracks ts).isEmpty = true := by
        by_contra hne
        have : selectTracks ts
            = .proceed (survivingTracks ts) (maxDurationOf ts) := by
          unfold selectTracks
          rw [if_neg hne]
        rw [this] at h
        exact SelectOutcome.noConfusion h
      rw [List.isEmpty_iff] at hemp
      rw [hemp] at hmem
      cases hmem
    · intro hall
      have hemp : survivingTracks ts = [] := by
        apply List.filter_eq_nil_iff.mpr
        intro t ht
        rw [hall t ht]
        exact Bool.false_ne_true
      unfold selectTracks
      rw [hemp]
      rfl
  · intro ns target h
    by_cases hemp : (survivingTracks ts).isEmpty = true
    · unfold selectTracks at h
      rw [if_pos hemp] at h
      exact SelectOutcome.noConfusion h
    · unfold selectTracks at h
      rw [if_neg hemp] at h
      injection h with h1 h2
      exact ⟨h1.symm, h2.symm.trans (maxDurationOf_ignores_unprobed ts)⟩
  · intro t ht htd
    have hmem : t ∈ survivingTracks ts := List.mem_filter.mpr ⟨ht, htd⟩
    have hne : ¬ (survivingTracks ts).isEmpty = true := by
      rw [List.isEmpty_iff]
      intro hc
      rw [hc] at hmem
      cases hmem
    refine ⟨survivingTracks ts, maxDurationOf ts, ?_, hmem⟩
    unfold selectTracks
    rw [if_neg hne]

/-- Witness for C3_track_selection at a concrete track list holding one
missing, one probed and one unprobeable track. -/
theorem C3_witness :
    ∃ ns target,
      selectTracks [⟨0, false, some 2⟩, ⟨1, true, none⟩]
        = .proceed ns target ∧ (⟨1, true, none⟩ : Track) ∈ ns :=
  (C3_track_selection [⟨0, false, some 2⟩, ⟨1, true, none⟩]).2.2
    ⟨1, true, none⟩ (by decide) rfl

/-- Claim C6 (confirmed): a normalized track strictly shorter than the
target gets silence of length exactly `target - duration` concatenated at
its end, a track at or above the target is copied byte-for-byte, and in
particular padding is the identity on a track already at the target. -/
theorem C6_padding (f : Wav) (target : ℚ) :
    (f.dur < target →
      synchronizeAudioFile f target = .padded f (target - f.dur) ∧
      (renderSync (synchronizeAudioFile f target)).dur = target ∧
      (renderSync (synchronizeAudioFile f target)).data
        = f.data ++ (silenceWav (target - f.dur)).data) ∧
    (target ≤ f.dur → synchronizeAudioFile f target = .copy f ∧
      renderSync (synchronizeAudioFile f target) = f) ∧
    (f.dur = target → renderSync (synchronizeAudioFile f target) = f) := by
  refine ⟨?_, ?_, ?_⟩
  · intro h
    have hn : ¬ target ≤ f.dur := not_le.mpr h
    unfold synchronizeAudioFile
    rw [if_neg hn]
    refine ⟨rfl, ?_, rfl⟩
    show f.dur + (target - f.dur) = target
    ring
  · intro h
    unfold synchronizeAudioFile
    rw [if_pos h]
    exact ⟨rfl, rfl⟩
  · intro h
    unfold synchronizeAudioFile
    rw [if_pos (le_of_eq h.symm)]
    rfl

/-- Witness for C6_padding: a 2-second track padded to 5 seconds, and a
track already at the target copied unchanged. -/
theorem C6_witness :
    synchronizeAudioFile ⟨[1], 2⟩ 5 = .padded ⟨[1], 2⟩ 3 ∧
    renderSync (synchronizeAudioFile ⟨[5, 6], 5⟩ 5) = ⟨[5, 6], 5⟩ := by
  constructor
  · have h := ((C6_padding ⟨[1], 2⟩ 5).1 (by norm_num)).1
    rw [h]
    norm_num
  · exact (C6_padding ⟨[5, 6], 5⟩ 5).2.2 rfl

/-- Claim C7 (confirmed): with exactly one surviving track the mix step
issues a direct transcode and never builds the amix graph; with two or
more tracks it builds the amix graph over all inputs, whose filter
string carries the longest-duration semantics. -/
theorem C7_mix_paths (inputs : List PyStr) (fmt bitrate : PyStr) :
    (∀ f, inputs = [f] →
      mixAudioFiles inputs fmt bitrate
          = .singleTranscode f (codecFor fmt) bitrate ∧
      usesAmixGraph (mixAudioFiles inputs fmt bitrate) = false) ∧
    (2 ≤ inputs.length →
      mixAudioFiles inputs fmt bitrate
          = .filterMix inputs (amixFilter inputs.length) (codecFor fmt)
              bitrate ∧
      usesAmixGraph (mixAudioFiles inputs fmt bitrate) = true ∧
      ":duration=longest".toList <:+: amixFilter inputs.length) := by
  constructor
  · rintro f rfl
    exact ⟨rfl, rfl⟩
  · intro h
    cases inputs with
    | nil => simp at h
    | cons a t =>
      cases t with
      | nil => simp at h
      | cons b rest => exact ⟨rfl, rfl, amixFilter_longest _⟩

/-- Witness for C7_mix_paths: one input transcodes directly; two inputs
build the amix graph. -/
theorem C7_witness :
    mixAudioFiles ["a.wav".toList] "mp3".toList "192k".toList
        = .singleTranscode "a.wav".toList "libmp3lame".toList
            "192k".toList ∧
    usesAmixGraph (mixAudioFiles ["a.wav".toList, "b.wav".toList]
        "mp3".toList "192k".toList) = true := by
  constructor
  · exact (((C7_mix_paths ["a.wav".toList] "mp3".toList "192k".toList).1
      "a.wav".toList rfl).1).trans (by decide)
  · exact ((C7_mix_paths ["a.wav".toList, "b.wav".toList] "mp3".toList
      "192k".toList).2 (by decide)).2.1

/-- Claim C8 (code bug): the code's own comment announces a 60-second
timeout and its handlers announce the typed errors, but the `timeout=60`
keyword is invalid for `asyncio.create_subprocess_exec` — forwarded to
`subprocess.Popen`, it raises an unhandled `TypeError` before ffmpeg
runs — so every normalize invocation fails regardless of how the process
would have ended; a non-zero exit or missing binary is never surfaced as
the typed error there, no invocation carries any timeout bound, and the
mix invocation additionally lets a missing binary propagate untyped. -/
theorem C8_invalid_timeout_kwarg :
    (∀ o, normalizeAudioFile o = .error .unhandledTypeError) ∧
    normalizeAudioFile .binaryMissing ≠ .error .toolMissing ∧
    normalizeAudioFile .ok ≠ .ok () ∧
    normalizeKwargs.timeoutSecs = some 60 ∧
    mixKwargs.timeoutSecs = none ∧
    syncKwargs.timeoutSecs = none ∧
    mixAudioFilesRun .binaryMissing = .error .unhandledFileNotFound ∧
    (∀ s, mixAudioFilesRun (.nonzeroExit s)
      = .error (.processFailed ("Audio mixing failed: ".toList ++ s))) := by
  refine ⟨fun o => rfl, ?_, ?_, rfl, rfl, rfl, rfl, fun _ => rfl⟩
  · intro h
    injection h with h'
    exact PipelineError.noConfusion h'
  · intro h
    exact Except.noConfusion h

/-- Claim C1 (code bug): with recordings root `/data/rec`, a token bound
to `/data/recdir/a.mp3` — a sibling directory whose name shares the
root's name as a string prefix — is served by the download route even
though the resolved path lies outside the root, because the route checks
`str(path).startswith(str(root))` instead of path containment.  The
route's own comment says the check must "ensure file is within
recordings directory". -/
theorem C1_sibling_escape_served :
    (download_file ⟨true, ["data".toList, "rec".toList]⟩ [] (fun _ => true)
        [("t".toList,
          ⟨7, ⟨true, ["data".toList, "recdir".toList, "a.mp3".toList]⟩, 10⟩)]
        0 "t".toList).1
      = .file ["data".toList, "recdir".toList, "a.mp3".toList] 7 ∧
    insideRoot (resolvePath [] ⟨true, ["data".toList, "rec".toList]⟩)
      ["data".toList, "recdir".toList, "a.mp3".toList] = false := by decide

/-- Claim C4 (corrected, counterexample): a token whose bound path is the
relative traversal `../recdir/b.mp3` escapes the recordings root
`/data/rec`, yet the route serves the file instead of answering
not-found, because the escape lands in a sibling directory whose
absolute path string extends the root's string — so this traversal case
is distinguishable from the unknown-token case, refuting the claim as
stated. -/
theorem C4_counterexample :
    "..".toList ∈ (⟨false,
        ["..".toList, "recdir".toList, "b.mp3".toList]⟩ : PyPath).comps ∧
    insideRoot (resolvePath [] ⟨true, ["data".toList, "rec".toList]⟩)
      (boundPathResolved ⟨true, ["data".toList, "rec".toList]⟩ []
        ⟨9, ⟨false, ["..".toList, "recdir".toList, "b.mp3".toList]⟩, 10⟩)
      = false ∧
    (download_file ⟨true, ["data".toList, "rec".toList]⟩ [] (fun _ => true)
        [("u".toList,
          ⟨9, ⟨false, ["..".toList, "recdir".toList, "b.mp3".toList]⟩, 10⟩)]
        0 "u".toList).1
      = .file ["data".toList, "recdir".toList, "b.mp3".toList] 9 ∧
    (DlResult.file ["data".toList, "recdir".toList, "b.mp3".toList] 9)
      ≠ .notFound := by decide

/-- Claim C4 (amended): the three rejection paths of the download route —
unknown token, expired token, and a token whose bound path fails the
root `startswith` check (which is what the route treats as a traversal
escape) — all produce the identical not-found response, indistinguishable
to the caller, and resolving an expired token removes it from the
active-token table. -/
theorem C4_indistinguishable (root : PyPath) (cwd : List PyStr)
    (fsExists : List PyStr → Bool) (tokens : List (PyStr × TokenInfo))
    (now : Nat) (tokU tokE tokP : PyStr) (infoE infoP : TokenInfo)
    (hU : tokens.lookup tokU = none)
    (hE : tokens.lookup tokE = some infoE) (hEx : infoE.expiresAt < now)
    (hP : tokens.lookup tokP = some infoP) (hPx : ¬ infoP.expiresAt < now)
    (hPc : passesRootCheck root cwd infoP = false) :
    (download_file root cwd fsExists tokens now tokU).1 = .notFound ∧
    (download_file root cwd fsExists tokens now tokE).1 = .notFound ∧
    (download_file root cwd fsExists tokens now tokP).1 = .notFound ∧
    (download_file root cwd fsExists tokens now tokU).1
      = (download_file root cwd fsExists tokens now tokE).1 ∧
    (download_file root cwd fsExists tokens now tokE).1
      = (download_file root cwd fsExists tokens now tokP).1 ∧
    (download_file root cwd fsExists tokens now tokE).2.lookup tokE
      = none := by
  have hu : (download_file root cwd fsExists tokens now tokU).1
      = .notFound := by
    unfold download_file
    rw [hU]
  have he : download_file root cwd fsExists tokens now tokE
      = (.notFound, tokens.filter (fun p => p.1 != tokE)) := by
    simp only [download_file, hE]
    rw [if_pos hEx]
  have hp : (download_file root cwd fsExists tokens now tokP).1
      = .notFound := by
    simp only [download_file, hP]
    rw [if_neg hPx, if_pos (by rw [hPc]; exact Bool.false_ne_true)]
  refine ⟨hu, by rw [he], hp, ?_, ?_, ?_⟩
  · rw [hu, he]
  · rw [he, hp]
  · rw [he]
    exact lookup_filter_ne tokens tokE

/-- Witness for C4_indistinguishable on a concrete token table holding an
expired token and a live token bound to an escaping path, queried also
with an unknown token. -/
theorem C4_witness :
    (download_file ⟨true, ["srv".toList]⟩ [] (fun _ => true)
        [("e".toList, ⟨1, ⟨true, ["srv".toList, "x.mp3".toList]⟩, 3⟩),
         ("p".toList, ⟨2, ⟨true, ["etc".toList, "pw".toList]⟩, 9⟩)]
        5 "n".toList).1 = .notFound ∧
    (download_file ⟨true, ["srv".toList]⟩ [] (fun _ => true)
        [("e".toList, ⟨1, ⟨true, ["srv".toList, "x.mp3".toList]⟩, 3⟩),
         ("p".toList, ⟨2, ⟨true, ["etc".toList, "pw".toList]⟩, 9⟩)]
        5 "p".toList).1 = .notFound ∧
    (download_file ⟨true, ["srv".toList]⟩ [] (fun _ => true)
        [("e".toList, ⟨1, ⟨true, ["srv".toList, "x.mp3".toList]⟩, 3⟩),
         ("p".toList, ⟨2, ⟨true, ["etc".toList, "pw".toList]⟩, 9⟩)]
        5 "e".toList).2.lookup "e".toList = none := by
  have h := C4_indistinguishable ⟨true, ["srv".toList]⟩ [] (fun _ => true)
    [("e".toList, ⟨1, ⟨true, ["srv".toList, "x.mp3".toList]⟩, 3⟩),
     ("p".toList, ⟨2, ⟨true, ["etc".toList, "pw".toList]⟩, 9⟩)]
    5 "n".toList "e".toList "p".toList
    ⟨1, ⟨true, ["srv".toList, "x.mp3".toList]⟩, 3⟩
    ⟨2, ⟨true, ["etc".toList, "pw".toList]⟩, 9⟩
    (by decide) (by decide) (by decide) (by decide) (by decide) (by decide)
  exact ⟨h.1, h.2.2.1, h.2.2.2.2.2⟩

/-- Claim C2 (corrected, counterexample): when the mixdown pipeline
fails, the handler notifies the user but performs no database write at
all — the durable row keeps status `'recording'` and is never
transitioned to `'failed'`, refuting the claim as stated. -/
theorem C2_counterexample :
    ((process_recording 1 freshRow 5 [] 5 true
        (.failure "ToolMissing".toList)).1).status = "recording".toList ∧
    "recording".toList ≠ "failed".toList ∧
    (process_recording 1 freshRow 5 [] 5 true
        (.failure "ToolMissing".toList)).2 = [.errorNotice 1] := by decide

/-- Claim C2 (amended): on any pipeline failure `process_recording`
leaves the durable row untouched — status stays `'recording'` and no
completion field is written — and reports the failure on the attached
channel; the completion fields and the `'completed'` status are written
exactly on the success path. -/
theorem C2_failure_handling (recId : Nat) (row : RecordingRow)
    (endT : Nat) (parts : List PyStr) (dur : Nat) (hasChannel : Bool)
    (run : PipelineRun) :
    (∀ e, run = .failure e →
      (process_recording recId row endT parts dur hasChannel run).1
          = row ∧
      (hasChannel = true →
        (process_recording recId row endT parts dur hasChannel run).2
          = [.errorNotice recId])) ∧
    (∀ p s, run = .success p s →
      (process_recording recId row endT parts dur hasChannel run).1
          = finish_recording endT p s parts dur ∧
      (process_recording recId row endT parts dur hasChannel run).1.status
          = "completed".toList ∧
      (process_recording recId row endT parts dur hasChannel run).1.endTime
          = some endT ∧
      (process_recording recId row endT parts dur hasChannel
          run).1.filePath = some p ∧
      (process_recording recId row endT parts dur hasChannel
          run).1.fileSize = some s ∧
      (process_recording recId row endT parts dur hasChannel
          run).1.duration = some dur) := by
  constructor
  · rintro e rfl
    exact ⟨rfl, fun hc => by subst hc; rfl⟩
  · rintro p s rfl
    exact ⟨rfl, rfl, rfl, rfl, rfl, rfl⟩

/-- Witness for C2_failure_handling: a failing run leaves the fresh row
untouched, a succeeding run completes it. -/
theorem C2_witness :
    (process_recording 1 freshRow 5 [] 5 true
        (.failure "boom".toList)).1 = freshRow ∧
    (process_recording 2 freshRow 5 ["a".toList] 7 true
        (.success "p.mp3".toList 3)).1.status = "completed".toList :=
  ⟨((C2_failure_handling 1 freshRow 5 [] 5 true
        (.failure "boom".toList)).1 "boom".toList rfl).1,
    ((C2_failure_handling 2 freshRow 5 ["a".toList] 7 true
        (.success "p.mp3".toList 3)).2 "p.mp3".toList 3 rfl).2.1⟩

/-- Claim C5 (confirmed): the join flow rejects a start while the guild
(and hence the channel, which belongs to exactly one guild) has a live
session — answering already-recording, creating no durable row and
leaving the table unchanged; a live session for the channel forces that
rejection; and a successful start adds exactly one live session for the
channel, exactly one in total when every session for that channel lives
under its guild key. -/
theorem C5_one_session_per_channel (st : LiveTable) (g c u n : Nat) :
    (∀ info, st.lookup g = some info →
      join_command st g c u n
        = (.alreadyRecording info.channelId info.recordingId, st, false)) ∧
    ((∃ p ∈ st, p.1 = g ∧ p.2.channelId = c) →
      ∃ info, st.lookup g = some info) ∧
    (st.lookup g = none →
      (join_command st g c u n).1 = .started n ∧
      (join_command st g c u n).2.2 = true ∧
      liveForChannel (join_command st g c u n).2.1 c
        = liveForChannel st c + 1 ∧
      ((∀ p ∈ st, p.2.channelId = c → p.1 = g) →
        liveForChannel (join_command st g c u n).2.1 c = 1)) := by
  refine ⟨?_, ?_, ?_⟩
  · intro info h
    unfold join_command
    rw [h]
  · rintro ⟨p, hp, hk, _⟩
    exact lookup_of_mem_key hp hk
  · intro h
    have hj : join_command st g c u n
        = (.started n, (g, ⟨n, c, u⟩) :: st, true) := by
      unfold join_command
      rw [h]
    have hcount : liveForChannel ((g, (⟨n, c, u⟩ : RecInfo)) :: st) c
        = liveForChannel st c + 1 := by
      unfold liveForChannel
      rw [List.filter_cons]
      rw [if_pos (by simp)]
      rw [List.length_cons]
    refine ⟨by rw [hj], by rw [hj], by rw [hj]; exact hcount, ?_⟩
    intro hcoh
    have hzero : liveForChannel st c = 0 := by
      unfold liveForChannel
      rw [List.filter_eq_nil_iff.mpr ?_, List.length_nil]
      intro p hp
      have hne := keys_ne_of_lookup_none h p hp
      intro hc
      exact hne (hcoh p hp (by simpa using hc))
    rw [hj]
    show liveForChannel ((g, (⟨n, c, u⟩ : RecInfo)) :: st) c = 1
    rw [hcount, hzero]

/-- Witness for C5_one_session_per_channel: a table recording channel 10
under guild 1 rejects a second join for guild 1, and a join for a fresh
guild 2 yields exactly one live session for its channel 20. -/
theorem C5_witness :
    join_command [(1, ⟨5, 10, 99⟩)] 1 10 42 6
      = (.alreadyRecording 10 5, [(1, ⟨5, 10, 99⟩)], false) ∧
    liveForChannel (join_command [(1, ⟨5, 10, 99⟩)] 2 20 42 6).2.1 20
      = 1 := by
  constructor
  · exact (C5_one_session_per_channel [(1, ⟨5, 10, 99⟩)] 1 10 42 6).1
      ⟨5, 10, 99⟩ (by decide)
  · exact ((C5_one_session_per_channel [(1, ⟨5, 10, 99⟩)] 2 20 42 6).2.2
      (by decide)).2.2.2 (by decide)

/-- Claim C9 (confirmed): a stop request by a user who is neither the
initiator nor holds Manage-Messages gets the Forbidden reply, the
live-session table is unchanged and still holds the session, capture is
not stopped, and the durable store is not updated. -/
theorem C9_forbidden_stop (st : LiveTable) (g u : Nat) (info : RecInfo)
    (h : st.lookup g = some info) (hu : u ≠ info.startedBy) :
    stop_command st g u false = ⟨.forbidden, st, false, false⟩ ∧
    (stop_command st g u false).state.lookup g = some info := by
  have hs : stop_command st g u false
      = ⟨.forbidden, st, false, false⟩ := by
    simp only [stop_command, h]
    rw [if_pos ⟨hu, trivial⟩]
  exact ⟨hs, by rw [hs]; exact h⟩

/-- Witness for C9_forbidden_stop: user 7 may not stop the session that
user 99 started. -/
theorem C9_witness :
    stop_command [(1, ⟨5, 10, 99⟩)] 1 7 false
      = ⟨.forbidden, [(1, ⟨5, 10, 99⟩)], false, false⟩ :=
  (C9_forbidden_stop [(1, ⟨5, 10, 99⟩)] 1 7 ⟨5, 10, 99⟩
    (by decide) (by decide)).1
